import Mathlib

/-!
Verification development for the densai report-approval system.

The definitions below are a shallow embedding of the server code:
`src/unnamed/part_011` (routes + pdfService + a storage variant) and
`src/unnamed/part_012` (the SQLite storage used by those routes), with the
shared table/zod schemas from `src/shared/schema.ts`.  Strings are modelled
as Lean `String`s (filenames and JSON text as `List Char`), SQLite integer
timestamps as `Int` seconds, and the database as explicit lists of rows.
-/

namespace Densai

/-! ## Data model (src/shared/schema.ts) -/

/-- Report lifecycle status column: draft, pending_approval, approved, rejected. -/
inductive Status where
  | draft
  | pending_approval
  | approved
  | rejected
deriving DecidableEq, Repr

/-- The `users` table row (username/password variant of the schema).
`roles` is a TEXT column expected to hold a JSON array such as
`["handler","approver"]`. -/
structure User where
  id : String
  username : String
  password : String
  firstName : String
  lastName : String
  roles : String
  createdAt : Int
  updatedAt : Int
deriving DecidableEq, Repr

/-- The `reports` table row. Nullable columns are `Option`s. -/
structure Report where
  id : String
  reportNumber : String
  userNumber : String
  bankCode : String
  branchCode : String
  companyName : String
  contactPersonName : String
  handlerId : String
  approverId : Option String
  inquiryContent : String
  responseContent : String
  escalationRequired : Bool
  escalationReason : Option String
  status : Status
  rejectionReason : Option String
  approvedAt : Option Int
  createdAt : Int
  updatedAt : Int
deriving DecidableEq, Repr

/-! ## A model of JavaScript `JSON.parse`

`hasRole` in part_011 (lines 17-25) and part_012 (lines 390-398) calls
`JSON.parse(user.roles)` inside a try/catch.  We model `JSON.parse` with an
executable parser over `List Char`: a single structurally recursive function
driven by a fuel counter and an explicit stack of partially parsed
containers, so that it evaluates inside the kernel.  Each recursive step
consumes at least one input character, hence fuel `length + 1` suffices. -/

/-- JSON values.  Numeric payloads are irrelevant to the program (role
checks only ever compare strings), so `num` carries no data. -/
inductive Json where
  | null
  | bool (b : Bool)
  | num
  | str (s : List Char)
  | arr (elems : List Json)
  | obj (members : List (List Char × Json))

/-- JSON whitespace characters (the four allowed by the JSON grammar). -/
def jsonWs (c : Char) : Bool :=
  c = ' ' || c = '\t' || c = '\n' || c = '\r'

def skipWs (l : List Char) : List Char := l.dropWhile jsonWs

/-- Translate a JSON string escape character. -/
def escChar (c : Char) : Option Char :=
  if c = '"' then some '"'
  else if c = '\\' then some '\\'
  else if c = '/' then some '/'
  else if c = 'b' then some (Char.ofNat 8)
  else if c = 'f' then some (Char.ofNat 12)
  else if c = 'n' then some '\n'
  else if c = 'r' then some '\r'
  else if c = 't' then some '\t'
  else none

def isHexDigit (c : Char) : Bool :=
  c.isDigit || ('a' ≤ c && c ≤ 'f') || ('A' ≤ c && c ≤ 'F')

def hexVal (c : Char) : Nat :=
  if c.isDigit then c.toNat - 48
  else if 'a' ≤ c && c ≤ 'f' then c.toNat - 87
  else c.toNat - 55

/-- Parse the body of a JSON string (after the opening quote), returning the
decoded characters and the rest of the input. -/
def parseStringBody : List Char → Option (List Char × List Char)
  | [] => none
  | '"' :: rest => some ([], rest)
  | '\\' :: 'u' :: a :: b :: c :: d :: rest =>
    if isHexDigit a && isHexDigit b && isHexDigit c && isHexDigit d then
      (parseStringBody rest).map fun (s, r) =>
        (Char.ofNat (4096 * hexVal a + 256 * hexVal b + 16 * hexVal c + hexVal d) :: s, r)
    else none
  | '\\' :: e :: rest =>
    match escChar e with
    | some ec => (parseStringBody rest).map fun (s, r) => (ec :: s, r)
    | none => none
  | c :: rest =>
    if c.toNat < 32 then none
    else (parseStringBody rest).map fun (s, r) => (c :: s, r)

/-- Scan a JSON number starting at the current position; returns the rest of
the input after the number, or `none` if the prefix is not a valid number. -/
def parseNumberTail (l : List Char) : Option (List Char) :=
  -- optional minus sign
  let l1 := match l with
    | '-' :: r => r
    | _ => l
  -- integer part: "0" or a nonzero digit followed by digits
  match l1 with
  | [] => none
  | c :: r =>
    if !c.isDigit then none
    else
      let l2 := if c = '0' then r else r.dropWhile Char.isDigit
      -- optional fraction
      let fracOk : Bool × List Char :=
        match l2 with
        | '.' :: fr =>
          match fr with
          | fc :: _ => if fc.isDigit then (true, fr.dropWhile Char.isDigit) else (false, l2)
          | [] => (false, l2)
        | _ => (true, l2)
      if !fracOk.1 then none
      else
        let l3 := fracOk.2
        -- optional exponent
        match l3 with
        | e :: er =>
          if e = 'e' || e = 'E' then
            let er2 := match er with
              | s :: r2 => if s = '+' || s = '-' then r2 else er
              | [] => er
            match er2 with
            | ec :: _ => if ec.isDigit then some (er2.dropWhile Char.isDigit) else none
            | [] => none
          else some l3
        | [] => some l3

/-- Stack frames for partially parsed containers. -/
inductive JFrame where
  | arrF (acc : List Json)
  | objF (acc : List (List Char × Json)) (key : List Char)

/-- The parsing loop.  `pending = some v` means a complete value `v` was just
produced and we must either close/continue the enclosing container or, with
an empty stack, accept end of input. -/
def parseLoop : Nat → List Char → List JFrame → Option Json → Option Json
  | 0, _, _, _ => none
  | _ + 1, l, [], some v => if skipWs l = [] then some v else none
  | fuel + 1, l, JFrame.arrF acc :: st, some v =>
    (match skipWs l with
     | ',' :: r => parseLoop fuel r (JFrame.arrF (acc ++ [v]) :: st) none
     | ']' :: r => parseLoop fuel r st (some (Json.arr (acc ++ [v])))
     | _ => none)
  | fuel + 1, l, JFrame.objF acc key :: st, some v =>
    (match skipWs l with
     | ',' :: r =>
       (match skipWs r with
        | '"' :: r2 =>
          (match parseStringBody r2 with
           | some (k2, r3) =>
             (match skipWs r3 with
              | ':' :: r4 => parseLoop fuel r4 (JFrame.objF (acc ++ [(key, v)]) k2 :: st) none
              | _ => none)
           | none => none)
        | _ => none)
     | '}' :: r => parseLoop fuel r st (some (Json.obj (acc ++ [(key, v)])))
     | _ => none)
  | fuel + 1, l, st, none =>
    (match skipWs l with
     | 'n' :: 'u' :: 'l' :: 'l' :: r => parseLoop fuel r st (some Json.null)
     | 't' :: 'r' :: 'u' :: 'e' :: r => parseLoop fuel r st (some (Json.bool true))
     | 'f' :: 'a' :: 'l' :: 's' :: 'e' :: r => parseLoop fuel r st (some (Json.bool false))
     | '"' :: r =>
       (match parseStringBody r with
        | some (s, r2) => parseLoop fuel r2 st (some (Json.str s))
        | none => none)
     | '[' :: r =>
       (match skipWs r with
        | ']' :: r2 => parseLoop fuel r2 st (some (Json.arr []))
        | _ => parseLoop fuel (skipWs r) (JFrame.arrF [] :: st) none)
     | '{' :: r =>
       (match skipWs r with
        | '}' :: r2 => parseLoop fuel r2 st (some (Json.obj []))
        | '"' :: r2 =>
          (match parseStringBody r2 with
           | some (k, r3) =>
             (match skipWs r3 with
              | ':' :: r4 => parseLoop fuel r4 (JFrame.objF [] k :: st) none
              | _ => none)
           | none => none)
        | _ => none)
     | rest =>
       (match parseNumberTail rest with
        | some r => parseLoop fuel r st (some Json.num)
        | none => none))

/-- Model of `JSON.parse`: `none` models a thrown `SyntaxError`. -/
def jsonParse (l : List Char) : Option Json :=
  parseLoop (2 * l.length + 2) l [] none

/-- Substring test, modelling JavaScript `String.prototype.includes`. -/
def containsSub (needle : List Char) : List Char → Bool
  | [] => List.isPrefixOf needle []
  | c :: rest => List.isPrefixOf needle (c :: rest) || containsSub needle rest

/-- The behaviour of `roles.includes(requiredRole)` on a parsed JSON value,
as executed by JavaScript inside the try/catch of `hasRole`:
an array uses element equality (`Array.prototype.includes` with `===`),
a string uses substring search (`String.prototype.includes`), and any other
value has no `.includes` method, so the thrown `TypeError` is caught by
`hasRole` and surfaces as `false`. -/
def jsIncludes : Json → List Char → Bool
  | Json.arr elems, r => elems.any fun e =>
      match e with
      | Json.str s => s = r
      | _ => false
  | Json.str s, r => containsSub r s
  | _, _ => false

/-- `hasRole` from part_011 lines 17-25 (identical private copy in part_012
lines 390-398): `try { const roles = JSON.parse(user.roles); return
roles.includes(requiredRole); } catch { return false; }`. -/
def hasRole (user : User) (requiredRole : String) : Bool :=
  match jsonParse user.roles.toList with
  | none => false
  | some roles => jsIncludes roles requiredRole.toList

/-! ## Decimal rendering and padding (JS `String(n)` / `padStart`) -/

def digitChar (n : Nat) : Char := Char.ofNat (48 + n)

def natDigitsAux : Nat → Nat → List Char
  | 0, _ => []
  | fuel + 1, n =>
    if n < 10 then [digitChar n]
    else natDigitsAux fuel (n / 10) ++ [digitChar (n % 10)]

/-- Decimal digits of `n`, most significant first: JS `String(n)`. -/
def natDigits (n : Nat) : List Char := natDigitsAux (n + 1) n

/-- JS `String.prototype.padStart(target, c)`. -/
def padStart (target : Nat) (c : Char) (l : List Char) : List Char :=
  if l.length < target then List.replicate (target - l.length) c ++ l else l

def pad2 (l : List Char) : List Char := padStart 2 '0' l

def pad3 (l : List Char) : List Char := padStart 3 '0' l

def charsToStr (l : List Char) : String := String.mk l

/-! ## Local calendar arithmetic (JS `new Date(y, m, d)` and `.getTime()`)

The server runs offline against SQLite with second-precision integer
timestamps; all `Date` values are interpreted in a fixed local timezone.
We model the local clock by civil fields and convert with the standard
days-from-civil formula.  The formula is linear in the day argument, so it
reproduces JavaScript's normalisation of out-of-range components:
`new Date(y, m, 0)` is the last day of month `m-1` and month 13 is January
of the following year (here months are 1-based). -/

/-- Days from 1970-01-01 to civil date `y-m-d` (m is 1-based; m may be 13,
d may be 0, matching JS `Date` component normalisation). -/
def daysFromCivil (y : Int) (m : Int) (d : Int) : Int :=
  let y1 : Int := if m ≤ 2 then y - 1 else y
  let era : Int := y1 / 400
  let yoe : Int := y1 - era * 400
  let mp : Int := if m > 2 then m - 3 else m + 9
  let doy : Int := (153 * mp + 2) / 5 + d - 1
  let doe : Int := yoe * 365 + yoe / 4 - yoe / 100 + doy
  era * 146097 + doe - 719468

/-- Seconds since the epoch of local civil time `y-m-d hh:mm:ss`:
`Math.floor(new Date(y, m-1, d, hh, mm, ss).getTime() / 1000)`. -/
def tsOf (y m d hh mm ss : Int) : Int :=
  86400 * daysFromCivil y m d + 3600 * hh + 60 * mm + ss

/-- A point of local civil time, as decomposed by `Date#getFullYear`,
`getMonth() + 1`, `getDate`, etc. -/
structure LocalTime where
  year : Int
  month : Int
  day : Int
  hour : Int
  minute : Int
  second : Int
deriving DecidableEq, Repr

/-- `Math.floor(Date.now() / 1000)` for the given local time. -/
def LocalTime.ts (t : LocalTime) : Int :=
  tsOf t.year t.month t.day t.hour t.minute t.second

/-! ## Report status updates (part_012 lines 197-217)

`updateReportStatusSchema` (src/shared/schema.ts lines 161-166) accepts
`status ∈ {pending_approval, approved, rejected}` with `rejectionReason`,
`approverId` and `approvedAt` all optional; `draft` is not accepted. -/

/-- A status accepted by `updateReportStatusSchema`'s enum. -/
inductive StatusArg where
  | pending_approval
  | approved
  | rejected
deriving DecidableEq, Repr

def StatusArg.toStatus : StatusArg → Status
  | StatusArg.pending_approval => Status.pending_approval
  | StatusArg.approved => Status.approved
  | StatusArg.rejected => Status.rejected

/-- The `UpdateReportStatus` payload, after zod validation. -/
structure UpdateReportStatus where
  status : StatusArg
  rejectionReason : Option String
  approverId : Option String
  approvedAt : Option Int
deriving DecidableEq, Repr

/-- The row update performed by `DatabaseStorage.updateReportStatus`
(part_012 lines 197-217).  It writes `status` and `updatedAt`, writes
`approvedAt` (from its own clock) only when the new status is `approved`,
and writes `rejectionReason` only when the payload's `rejectionReason` is
truthy (a non-empty string).  Note that it never writes `approverId`, even
though the payload carries one. -/
def applyStatusUpdate (u : UpdateReportStatus) (now : Int) (r : Report) : Report :=
  let r1 := { r with status := u.status.toStatus, updatedAt := now }
  let r2 := if u.status = StatusArg.approved then { r1 with approvedAt := some now } else r1
  match u.rejectionReason with
  | some reason => if reason ≠ "" then { r2 with rejectionReason := some reason } else r2
  | none => r2

/-- `UPDATE reports SET ... WHERE id = ?` over the reports table. -/
def updateReportStatus (db : List Report) (id : String) (u : UpdateReportStatus)
    (now : Int) : List Report :=
  db.map fun r => if r.id = id then applyStatusUpdate u now r else r

/-- `storage.getReport` (part_012 lines 219-249): a single-row lookup by id;
the handler/approver joins only attach user details (the approver join is a
left join), so a row is returned whenever the id exists. -/
def findReport (db : List Report) (id : String) : Option Report :=
  db.find? fun r => r.id = id

/-! ## PATCH /api/reports/:id/status (part_011 lines 334-386)

The handler looks up the report and the acting user, requires the
`approver` role, requires the report to currently be `pending_approval`,
then parses the body with `updateReportStatusSchema` and calls
`storage.updateReportStatus` — spreading in `approverId: userId` (and, for
approval, `approvedAt`), both of which that storage method ignores.
Each early `return` happens before the single UPDATE, so on every error
path the table is untouched; we model this by returning the (possibly
updated) table alongside the HTTP-style outcome. -/

/-- A request body accepted by `updateReportStatusSchema`. -/
structure StatusBody where
  status : StatusArg
  rejectionReason : Option String
deriving DecidableEq, Repr

def setReportStatus (db : List Report) (actor : User) (id : String)
    (body : StatusBody) (now : Int) : List Report × Except String Report :=
  match findReport db id with
  | none => (db, Except.error "Report not found")
  | some existingReport =>
    if hasRole actor "approver" = false then
      (db, Except.error "Not authorized - approver role required")
    else if existingReport.status ≠ Status.pending_approval then
      (db, Except.error "Report is not in pending approval status")
    else if body.status = StatusArg.approved then
      -- approval branch: spread in approverId and approvedAt (ignored by storage)
      let u : UpdateReportStatus :=
        { status := body.status, rejectionReason := body.rejectionReason,
          approverId := some actor.id, approvedAt := some now }
      (updateReportStatus db id u now, Except.ok (applyStatusUpdate u now existingReport))
    else
      -- rejection (or re-pending) branch: spread in approverId only
      let u : UpdateReportStatus :=
        { status := body.status, rejectionReason := body.rejectionReason,
          approverId := some actor.id, approvedAt := none }
      (updateReportStatus db id u now, Except.ok (applyStatusUpdate u now existingReport))

/-! ## PATCH /api/reports/:id/submit (part_011 lines 389-440)

The stored report itself is validated with `submitReportForApprovalSchema`
(src/shared/schema.ts lines 126-159): the base `insertReportSchema` puts a
`min(1)` constraint on each of the seven required text fields (producing a
field-labelled issue per empty field), and the `.refine` — which zod runs
only when the base schema passed — additionally requires each field to be
non-empty after `trim()` (producing one issue with no field path).  No
constraint mentions `escalationReason`. -/

/-- JS `String.prototype.trim`. -/
def jsTrim (l : List Char) : List Char :=
  ((l.dropWhile Char.isWhitespace).reverse.dropWhile Char.isWhitespace).reverse

/-- The seven required report fields named by `insertReportSchema`. -/
inductive ReqField where
  | userNumber
  | bankCode
  | branchCode
  | companyName
  | contactPersonName
  | inquiryContent
  | responseContent
deriving DecidableEq, Repr

def Report.reqField (r : Report) : ReqField → String
  | ReqField.userNumber => r.userNumber
  | ReqField.bankCode => r.bankCode
  | ReqField.branchCode => r.branchCode
  | ReqField.companyName => r.companyName
  | ReqField.contactPersonName => r.contactPersonName
  | ReqField.inquiryContent => r.inquiryContent
  | ReqField.responseContent => r.responseContent

def reqFieldList : List ReqField :=
  [ReqField.userNumber, ReqField.bankCode, ReqField.branchCode,
   ReqField.companyName, ReqField.contactPersonName,
   ReqField.inquiryContent, ReqField.responseContent]

/-- A zod issue raised by `submitReportForApprovalSchema`. -/
inductive SubmitIssue where
  /-- `min(1)` failed for this field (issue path = the field). -/
  | required (f : ReqField)
  /-- the `.refine` over all trimmed fields failed (issue path = []). -/
  | allRequired
deriving DecidableEq, Repr

/-- Issues produced by the base `insertReportSchema` checks. -/
def baseIssues (r : Report) : List SubmitIssue :=
  reqFieldList.filterMap fun f =>
    if (r.reqField f).length = 0 then some (SubmitIssue.required f) else none

/-- `data.<field>.trim().length > 0` for every required field. -/
def refinePasses (r : Report) : Bool :=
  reqFieldList.all fun f => (jsTrim (r.reqField f).toList).length > 0

/-- `submitReportForApprovalSchema.safeParse(existingReport)`: the issue
list is empty exactly when parsing succeeded. -/
def submitIssues (r : Report) : List SubmitIssue :=
  if baseIssues r = [] then
    if refinePasses r then [] else [SubmitIssue.allRequired]
  else baseIssues r

/-- Outcome of the submit route. -/
inductive SubmitResp where
  | notFound
  | forbidden
  | validationFailed (errs : List SubmitIssue)
  | ok (r : Report)
deriving DecidableEq, Repr

/-- The submit handler: ownership check, validation of the stored report,
then `storage.updateReportStatus(id, { status: "pending_approval" })`. -/
def submitReport (db : List Report) (actorId : String) (id : String)
    (now : Int) : List Report × SubmitResp :=
  match findReport db id with
  | none => (db, SubmitResp.notFound)
  | some existingReport =>
    if existingReport.handlerId ≠ actorId then (db, SubmitResp.forbidden)
    else
      match submitIssues existingReport with
      | [] =>
        let u : UpdateReportStatus :=
          { status := StatusArg.pending_approval, rejectionReason := none,
            approverId := none, approvedAt := none }
        (updateReportStatus db id u now, SubmitResp.ok (applyStatusUpdate u now existingReport))
      | errs => (db, SubmitResp.validationFailed errs)

/-! ## createReport (part_012 lines 147-186)

The report number is derived by counting existing rows whose `created_at`
lies between `new Date(year, month0, 1)` and `new Date(year, month0 + 1, 0)`
(both inclusive).  `new Date(year, month0 + 1, 0)` is *midnight at the
start of the last day* of the current month. -/

/-- The fields the route supplies to `storage.createReport` (the validated
body plus `handlerId`, `approverId` and `status`). -/
structure InsertReport where
  userNumber : String
  bankCode : String
  branchCode : String
  companyName : String
  contactPersonName : String
  handlerId : String
  approverId : Option String
  inquiryContent : String
  responseContent : String
  escalationRequired : Bool
  escalationReason : Option String
  status : Status
deriving DecidableEq, Repr

def createReport (db : List Report) (ins : InsertReport) (newId : String)
    (now : LocalTime) : List Report × Report :=
  let year := now.year
  let month := now.month   -- String(now.getMonth() + 1).padStart(2, '0')
  let monthStartTimestamp := tsOf year month 1 0 0 0
  let monthEndTimestamp := tsOf year (month + 1) 0 0 0 0
  let monthlyCount :=
    (db.filter fun p =>
      monthStartTimestamp ≤ p.createdAt && p.createdAt ≤ monthEndTimestamp).length
  let reportNumber := charsToStr
    ("RPT-".toList ++ natDigits year.toNat ++ '-' :: pad2 (natDigits month.toNat)
      ++ '-' :: pad3 (natDigits (monthlyCount + 1)))
  let currentTimestamp := now.ts
  let created : Report :=
    { id := newId
      reportNumber := reportNumber
      userNumber := ins.userNumber
      bankCode := ins.bankCode
      branchCode := ins.branchCode
      companyName := ins.companyName
      contactPersonName := ins.contactPersonName
      handlerId := ins.handlerId
      approverId := ins.approverId
      inquiryContent := ins.inquiryContent
      responseContent := ins.responseContent
      escalationRequired := ins.escalationRequired
      escalationReason := ins.escalationReason
      status := ins.status
      rejectionReason := none
      approvedAt := none
      createdAt := currentTimestamp
      updatedAt := currentTimestamp }
  (db ++ [created], created)

/-! ## Listing and search (part_011 lines 230-266, part_012 lines 251-345)

`ORDER BY created_at DESC` only permutes results and is omitted; the
claims about listing are about which rows are returned. -/

/-- SQL `LIKE '%q%'` on a text column (SQLite substring match). -/
def likeContains (column : String) (q : String) : Bool :=
  containsSub q.toList column.toList

/-- `storage.searchReports` (part_012 lines 311-345).  The WHERE clause
matches the free-text query against four columns; the inner joins on
handler and approver require both user rows to exist (a NULL `approverId`
row is dropped by the approver inner join).  The function declares a single
`query` parameter: the extra scoping argument passed by the route does not
exist in its signature and is discarded by JavaScript. -/
def searchReports (db : List Report) (usersDb : List User) (query : String) :
    List Report :=
  db.filter fun r =>
    (likeContains r.reportNumber query || likeContains r.companyName query ||
      likeContains r.contactPersonName query || likeContains r.inquiryContent query)
    && usersDb.any (fun u => u.id = r.handlerId)
    && (match r.approverId with
        | some a => usersDb.any fun u => u.id = a
        | none => false)

/-- `storage.getReportsForApproval` (part_012 lines 257-279): all
`pending_approval` rows joined with their handler; the `approverId`
argument is logged and never used in the WHERE clause. -/
def getReportsForApproval (db : List Report) (usersDb : List User) : List Report :=
  db.filter fun r =>
    r.status = Status.pending_approval && usersDb.any (fun u => u.id = r.handlerId)

/-- `storage.getReportsByUser` (part_012 lines 251-255): stubbed to return
an empty array ("Simplified approach - just return empty array for now"). -/
def getReportsByUser (_db : List Report) (_userId : String)
    (_status : Option Status) : List Report :=
  []

/-- GET /api/reports (part_011 lines 230-266).  With a search term the
route calls `storage.searchReports(search, isApprover ? undefined :
userId)`; the callee ignores the second argument.  Without a search term,
approvers get `getReportsForApproval()` and other users
`getReportsByUser(userId, status)`. -/
def listReports (db : List Report) (usersDb : List User) (actor : User)
    (status : Option Status) (search : Option String) : List Report :=
  let isApprover := hasRole actor "approver"
  match search with
  | some q => searchReports db usersDb q
  | none =>
    if isApprover then getReportsForApproval db usersDb
    else getReportsByUser db actor.id status

/-! ## getReportStatistics (part_012 lines 347-387) -/

structure Statistics where
  todayInquiries : Nat
  pendingApprovals : Nat
  monthlyCompleted : Nat
  escalations : Nat
deriving DecidableEq, Repr

def getReportStatistics (db : List Report) (today : LocalTime) : Statistics :=
  let startOfDay := tsOf today.year today.month today.day 0 0 0
  let endOfDay := tsOf today.year today.month (today.day + 1) 0 0 0
  let startOfMonth := tsOf today.year today.month 1 0 0 0
  { todayInquiries :=
      (db.filter fun r => startOfDay ≤ r.createdAt && r.createdAt < endOfDay).length
    pendingApprovals :=
      (db.filter fun r => r.status = Status.pending_approval).length
    monthlyCompleted :=
      (db.filter fun r => r.status = Status.approved && startOfMonth ≤ r.createdAt).length
    escalations :=
      (db.filter fun r => r.escalationRequired).length }

/-! ## PDFService filename generation (part_011 lines 1002-1037, 1306-1341)

Filenames are plain directory entries, modelled as `List Char`.  The date
string `YYYYMMDD` comes from the wall clock and is a parameter here, as is
the current directory listing. -/

/-- The result of `Math.max(...sequences) + 1`: spreading an empty array
into `Math.max` yields `-Infinity`, which `+ 1` preserves. -/
inductive SeqNumber where
  | negInf
  | nat (n : Nat)
deriving DecidableEq, Repr

/-- The trailing sequence extracted by `file.match(/_(\d{3})\.pdf$/)`:
the digits are taken when the name ends with an underscore, exactly three
digits and `.pdf`; any other name contributes 0 (which the caller filters
out). -/
def parseSeq (f : List Char) : Nat :=
  match f.reverse with
  | 'f' :: 'd' :: 'p' :: '.' :: c :: b :: a :: '_' :: _ =>
    if a.isDigit && b.isDigit && c.isDigit then
      100 * (a.toNat - 48) + 10 * (b.toNat - 48) + (c.toNat - 48)
    else 0
  | _ => 0

/-- Core of `getSequenceNumber` / `getBulkSequenceNumber`: filter the
directory by prefix, extract positive trailing sequences, return
`Math.max(...) + 1` (or 1 when nothing matches the prefix). -/
def nextSequenceNumber (files : List (List Char)) (pattern : List Char) : SeqNumber :=
  let matchingFiles := files.filter fun f => List.isPrefixOf pattern f
  if matchingFiles.length = 0 then SeqNumber.nat 1
  else
    let sequences := (matchingFiles.map parseSeq).filter fun s => 0 < s
    match sequences with
    | [] => SeqNumber.negInf
    | s :: rest => SeqNumber.nat (rest.foldl max s + 1)

/-- `sequence.toString().padStart(3, '0')`. -/
def seqChars : SeqNumber → List Char
  | SeqNumber.negInf => "-Infinity".toList
  | SeqNumber.nat n => pad3 (natDigits n)

def pdfPattern (bankCode branchCode dateStr : List Char) : List Char :=
  bankCode ++ '_' :: branchCode ++ '_' :: dateStr ++ ['_']

/-- `getSequenceNumber(bankCode, branchCode, dateStr)` over directory
listing `files`. -/
def getSequenceNumber (files : List (List Char)) (bankCode branchCode dateStr : List Char) :
    SeqNumber :=
  nextSequenceNumber files (pdfPattern bankCode branchCode dateStr)

/-- `generatePDFFilename(report)`:
`{bankCode}_{branchCode}_{YYYYMMDD}_{seq}.pdf`. -/
def generatePDFFilename (files : List (List Char)) (bankCode branchCode dateStr : List Char) :
    List Char :=
  pdfPattern bankCode branchCode dateStr
    ++ seqChars (getSequenceNumber files bankCode branchCode dateStr) ++ ".pdf".toList

def bulkPattern (bankCode dateStr : List Char) : List Char :=
  bankCode ++ "_BULK_".toList ++ dateStr ++ ['_']

/-- `getBulkSequenceNumber(bankCode, dateStr)`. -/
def getBulkSequenceNumber (files : List (List Char)) (bankCode dateStr : List Char) :
    SeqNumber :=
  nextSequenceNumber files (bulkPattern bankCode dateStr)

/-- `generateBulkPDFFilename(bankCode)`:
`{bankCode}_BULK_{YYYYMMDD}_{seq}.pdf`. -/
def generateBulkPDFFilename (files : List (List Char)) (bankCode dateStr : List Char) :
    List Char :=
  bulkPattern bankCode dateStr
    ++ seqChars (getBulkSequenceNumber files bankCode dateStr) ++ ".pdf".toList

/-! ## PDF / print routes (part_011 lines 467-508, 668-769, 803-881, 938-979)

The rendering collaborator (`pdfService.generatePDFHTML` and friends) is
opaque; we model a produced document as a constructor application recording
which report(s) were rendered, so "rendering was invoked on r" is visible
in the route's result. -/

/-- An opaque rendered document. -/
inductive Doc where
  /-- `pdfService.generatePDFHTML(report)` or the print route's text body. -/
  | rendered (r : Report)
  /-- `pdfService.generateBulkPDFHTML(reports, bankCode)`. -/
  | renderedBulk (rs : List Report) (bankCode : String)
deriving DecidableEq, Repr

/-- GET /api/reports/:id/pdf (part_011 lines 467-508): returns the data
needed for PDF generation; gated on `status === 'approved'`. -/
def pdfDataRoute (db : List Report) (id : String) : Except String Report :=
  match findReport db id with
  | none => Except.error "Report not found"
  | some report =>
    if report.status ≠ Status.approved then
      Except.error "Only approved reports can be printed"
    else Except.ok report

/-- POST /api/reports/:id/print (part_011 lines 668-769): requires printer
parameters, then the approval gate, then renders a text document and sends
it to the printer. -/
def printRoute (db : List Report) (id : String) (printerId printerName : String) :
    Except String Doc :=
  if printerId = "" || printerName = "" then
    Except.error "Printer ID and name are required"
  else
    match findReport db id with
    | none => Except.error "Report not found"
    | some report =>
      if report.status ≠ Status.approved then
        Except.error "Only approved reports can be printed"
      else Except.ok (Doc.rendered report)

/-- Body and result of POST /api/reports/:id/print-pdf. -/
inductive PdfAction where
  | save
  | print
  | other
deriving DecidableEq, Repr

structure PrintPdfResp where
  filename : Option (List Char)
  htmlContent : Doc
deriving DecidableEq, Repr

/-- POST /api/reports/:id/print-pdf (part_011 lines 803-849): approval
gate, then `generatePDFHTML`, then branch on the requested action ('save'
additionally computes a filename). -/
def printPdfRoute (db : List Report) (files : List (List Char)) (dateStr : List Char)
    (id : String) (action : PdfAction) : Except String PrintPdfResp :=
  match findReport db id with
  | none => Except.error "Report not found"
  | some report =>
    if report.status ≠ Status.approved then
      Except.error "Only approved reports can be printed"
    else
      let htmlContent := Doc.rendered report
      match action with
      | PdfAction.save =>
        let filename :=
          generatePDFFilename files report.bankCode.toList report.branchCode.toList dateStr
        Except.ok { filename := some filename, htmlContent := htmlContent }
      | PdfAction.print => Except.ok { filename := none, htmlContent := htmlContent }
      | PdfAction.other => Except.error "Invalid action. Use 'save' or 'print'"

/-- POST /api/reports/:id/save-pdf (part_011 lines 852-881): approval gate,
then `pdfService.savePDF` writes the client-supplied buffer under a fresh
generated name. -/
def savePdfRoute (db : List Report) (files : List (List Char)) (dateStr : List Char)
    (id : String) : Except String (List Char) :=
  match findReport db id with
  | none => Except.error "Report not found"
  | some report =>
    if report.status ≠ Status.approved then
      Except.error "Only approved reports can be saved as PDF"
    else
      Except.ok (generatePDFFilename files report.bankCode.toList report.branchCode.toList dateStr)

/-- Modelled from the spec: `storage.getTodayApprovedReportsByBank`, called
by POST /api/reports/bulk-print-today (part_011 lines 938-979), is not
among the source files; per its name, the route's comment ("Get today's
approved reports grouped by bank") and spec §4.4's day window, it returns
today's `approved` reports grouped by `bankCode`. -/
def getTodayApprovedReportsByBank (db : List Report) (today : LocalTime) :
    List (String × List Report) :=
  let startOfDay := tsOf today.year today.month today.day 0 0 0
  let endOfDay := tsOf today.year today.month (today.day + 1) 0 0 0
  let todays := db.filter fun r =>
    r.status = Status.approved && startOfDay ≤ r.createdAt && r.createdAt < endOfDay
  ((todays.map fun r => r.bankCode).eraseDups).map fun b =>
    (b, todays.filter fun r => r.bankCode = b)

structure BulkFile where
  bankCode : String
  reports : List Report
  filename : List Char
  htmlContent : Doc
deriving DecidableEq, Repr

/-- POST /api/reports/bulk-print-today (part_011 lines 938-979): for each
bank with at least one of today's approved reports, render a bulk document
and generate a bulk filename. -/
def bulkPrintToday (db : List Report) (files : List (List Char)) (dateStr : List Char)
    (today : LocalTime) : List BulkFile :=
  let groupedReports := getTodayApprovedReportsByBank db today
  (groupedReports.filter fun g => g.2.length > 0).map fun g =>
    { bankCode := g.1
      reports := g.2
      filename := generateBulkPDFFilename files g.1.toList dateStr
      htmlContent := Doc.renderedBulk g.2 g.1 }

/-! ## Specification-side helper definitions -/

/-- Spec-side reading of a trailing three-digit sequence from a
three-character block. -/
def parse3 (l : List Char) : Nat :=
  match l with
  | [x, y, z] =>
    if x.isDigit && y.isDigit && z.isDigit then
      100 * (x.toNat - 48) + 10 * (y.toNat - 48) + (z.toNat - 48)
    else 0
  | _ => 0

/-- The seven required fields are non-empty after trimming — the submit
precondition stated claim-side. -/
def submitRequirementsMet (r : Report) : Prop :=
  jsTrim r.userNumber.toList ≠ [] ∧ jsTrim r.bankCode.toList ≠ [] ∧
  jsTrim r.branchCode.toList ≠ [] ∧ jsTrim r.companyName.toList ≠ [] ∧
  jsTrim r.contactPersonName.toList ≠ [] ∧ jsTrim r.inquiryContent.toList ≠ [] ∧
  jsTrim r.responseContent.toList ≠ []

/-! ## Concrete fixtures used by witnesses and counterexamples -/

def sampleReport : Report :=
  { id := "r1", reportNumber := "RPT-2025-10-001", userNumber := "U100",
    bankCode := "1234", branchCode := "001", companyName := "Acme",
    contactPersonName := "Taro", handlerId := "h1", approverId := none,
    inquiryContent := "Q", responseContent := "A", escalationRequired := false,
    escalationReason := none, status := Status.draft, rejectionReason := none,
    approvedAt := none, createdAt := 100, updatedAt := 100 }

def approverUser : User := ⟨"a1", "a1", "p", "A", "P", "[\"approver\"]", 0, 0⟩

def handlerUser1 : User := ⟨"h1", "h1", "p", "H", "One", "[\"handler\"]", 0, 0⟩

def handlerUser2 : User := ⟨"h2", "h2", "p", "H", "Two", "[\"handler\"]", 0, 0⟩

def userBadRoles : User := ⟨"u1", "u1", "p", "F", "L", "handler", 0, 0⟩

def userHandlerApprover : User :=
  ⟨"u2", "u2", "p", "F", "L", "[\"handler\",\"approver\"]", 0, 0⟩

def pendingReport : Report := { sampleReport with status := Status.pending_approval }

def approvedReport : Report :=
  { sampleReport with status := Status.approved, approvedAt := some 200 }

def rejectedNoReasonReport : Report :=
  { pendingReport with status := Status.rejected, updatedAt := 300 }

def escalationReport : Report :=
  { sampleReport with escalationRequired := true, escalationReason := some "" }

def blankFieldReport : Report := { sampleReport with companyName := " " }

def otherHandlersReport : Report :=
  { sampleReport with
    id := "r9", reportNumber := "RPT-2025-10-009",
    handlerId := "h2", approverId := some "a1", status := Status.approved }

def insertFields : InsertReport :=
  { userNumber := "U100", bankCode := "1234", branchCode := "001",
    companyName := "Acme", contactPersonName := "Taro", handlerId := "h1",
    approverId := none, inquiryContent := "Q", responseContent := "A",
    escalationRequired := false, escalationReason := none, status := Status.draft }

def janLastDayNoon : LocalTime := ⟨2025, 1, 31, 12, 0, 0⟩

def janLastDayLater : LocalTime := ⟨2025, 1, 31, 13, 0, 0⟩

def pdfFiles999 : List (List Char) :=
  ["077_001_20251011_999.pdf".toList, "077_001_20251011_1000.pdf".toList]

def pdfDirSample : List (List Char) :=
  ["077_001_20251011_001.pdf".toList, "readme.txt".toList]

/-! ## Helper lemmas -/

theorem applyStatusUpdate_id (u : UpdateReportStatus) (now : Int) (r : Report) :
    (applyStatusUpdate u now r).id = r.id := by
  unfold applyStatusUpdate
  split <;> split <;> (try split) <;> rfl

theorem findReport_update (db : List Report) (id : String) (u : UpdateReportStatus)
    (now : Int) (r : Report) (h : findReport db id = some r) :
    findReport (updateReportStatus db id u now) id = some (applyStatusUpdate u now r) := by
  induction db with
  | nil => simp [findReport] at h
  | cons a tl ih =>
    by_cases hid : a.id = id
    · have ha : a = r := by
        have hc := List.find?_cons_of_pos (p := fun x => decide (x.id = id)) (a := a) tl
          (by simp [hid])
        simp only [findReport] at h
        rw [hc] at h
        exact Option.some.inj h
      subst ha
      simp only [findReport, updateReportStatus, List.map_cons, if_pos hid]
      exact List.find?_cons_of_pos (a := applyStatusUpdate u now a) _
        (by simp [applyStatusUpdate_id, hid])
    · have h2 : findReport tl id = some r := by
        have hc := List.find?_cons_of_neg (p := fun x => decide (x.id = id)) (a := a) tl
          (by simp [hid])
        simp only [findReport] at h ⊢
        rw [hc] at h
        exact h
      have hres := ih h2
      simp only [findReport, updateReportStatus, List.map_cons, if_neg hid] at hres ⊢
      rw [List.find?_cons_of_neg (a := a) _ (by simp [hid])]
      exact hres

theorem refinePasses_baseIssues (r : Report) (h : refinePasses r = true) :
    baseIssues r = [] := by
  unfold baseIssues
  rw [List.filterMap_eq_nil_iff]
  intro f hf
  have hall := (List.all_eq_true.mp h) f hf
  have hlen : (r.reqField f).length ≠ 0 := by
    intro h0
    have hdata : (r.reqField f).toList = [] := List.length_eq_zero.mp h0
    have hnil : jsTrim (r.reqField f).toList = [] := by rw [hdata]; rfl
    rw [hnil] at hall
    simp at hall
  rw [if_neg hlen]

theorem submitIssues_empty_iff (r : Report) :
    submitIssues r = [] ↔ refinePasses r = true := by
  unfold submitIssues
  by_cases hb : baseIssues r = []
  · by_cases hr : refinePasses r = true <;> simp [hb, hr]
  · rw [if_neg hb]
    exact ⟨fun h => absurd h hb, fun hr => absurd (refinePasses_baseIssues r hr) hb⟩

theorem refinePasses_iff (r : Report) :
    refinePasses r = true ↔ submitRequirementsMet r := by
  unfold refinePasses submitRequirementsMet reqFieldList Report.reqField
  simp [List.all_cons, List.length_pos]

set_option maxRecDepth 8000 in
theorem pad3_parse_bounded : ∀ n, n < 1000 →
    (1 ≤ n → (pad3 (natDigits n)).length = 3 ∧ parse3 (pad3 (natDigits n)) = n) := by
  decide

theorem foldl_max_le_init (s : Nat) (l : List Nat) : s ≤ l.foldl max s := by
  induction l generalizing s with
  | nil => exact le_refl s
  | cons a tl ih => exact le_trans (le_max_left s a) (ih (max s a))

theorem foldl_max_le_mem (l : List Nat) (x : Nat) (hx : x ∈ l) (s : Nat) :
    x ≤ l.foldl max s := by
  induction l generalizing s with
  | nil => cases hx
  | cons a tl ih =>
    rcases List.mem_cons.mp hx with h | h
    · subst h
      exact le_trans (le_max_right s x) (foldl_max_le_init _ tl)
    · exact ih h (max s a)

theorem foldl_max_mem (l : List Nat) (s : Nat) : l.foldl max s ∈ s :: l := by
  induction l generalizing s with
  | nil => simp
  | cons a tl ih =>
    have h := ih (max s a)
    rcases List.mem_cons.mp h with h1 | h1
    · rcases max_choice s a with hm | hm
      · rw [List.foldl_cons, h1, hm]
        exact List.mem_cons_self _ _
      · rw [List.foldl_cons, h1, hm]
        exact List.mem_cons_of_mem _ (List.mem_cons_self _ _)
    · rw [List.foldl_cons]
      exact List.mem_cons_of_mem _ (List.mem_cons_of_mem _ h1)

theorem parseSeq_pattern (q : List Char) (x y z : Char) :
    parseSeq (q ++ '_' :: ([x, y, z] ++ ['.', 'p', 'd', 'f'])) = parse3 [x, y, z] := by
  unfold parseSeq parse3
  have hrev : (q ++ '_' :: ([x, y, z] ++ ['.', 'p', 'd', 'f'])).reverse
      = 'f' :: 'd' :: 'p' :: '.' :: z :: y :: x :: '_' :: q.reverse := by
    simp
  rw [hrev]
  rfl

/-- Freshness of the generated filename, for any directory whose files
matching the pattern all carry trailing sequences in 1..998. -/
theorem nextSequenceNumber_fresh (files : List (List Char)) (q : List Char)
    (H : ∀ f ∈ files, List.isPrefixOf (q ++ ['_']) f = true →
      1 ≤ parseSeq f ∧ parseSeq f ≤ 998) :
    ((q ++ ['_']) ++ seqChars (nextSequenceNumber files (q ++ ['_'])) ++ ".pdf".toList)
      ∉ files := by
  intro hmem
  set pattern := q ++ ['_'] with hpat
  set gen := pattern ++ seqChars (nextSequenceNumber files pattern) ++ ".pdf".toList
    with hgen
  have hpre : List.isPrefixOf pattern gen = true := by
    rw [List.isPrefixOf_iff_prefix, hgen]
    exact ⟨_, (List.append_assoc pattern _ _).symm⟩
  have hmatch : gen ∈ files.filter fun f => List.isPrefixOf pattern f :=
    List.mem_filter.mpr ⟨hmem, hpre⟩
  have hempty : ¬ (files.filter fun f => List.isPrefixOf pattern f).length = 0 := by
    intro h0
    rw [List.length_eq_zero] at h0
    rw [h0] at hmatch
    cases hmatch
  have hne : (files.filter fun f => List.isPrefixOf pattern f) ≠ [] := by
    intro h0
    rw [h0] at hempty
    simp at hempty
  obtain ⟨f0, hf0⟩ := List.exists_mem_of_ne_nil _ hne
  have hf0m := List.mem_filter.mp hf0
  have hb0 := H f0 hf0m.1 hf0m.2
  have hseq0 : parseSeq f0 ∈
      ((files.filter fun f => List.isPrefixOf pattern f).map parseSeq).filter
        fun s => 0 < s :=
    List.mem_filter.mpr ⟨List.mem_map_of_mem parseSeq hf0,
      by simp only [decide_eq_true_eq]; omega⟩
  cases hseqs : ((files.filter fun f => List.isPrefixOf pattern f).map parseSeq).filter
      fun s => 0 < s with
  | nil =>
    rw [hseqs] at hseq0
    cases hseq0
  | cons s rest =>
    have hval : nextSequenceNumber files pattern
        = SeqNumber.nat (rest.foldl max s + 1) := by
      unfold nextSequenceNumber
      rw [if_neg hempty]
      dsimp only
      rw [hseqs]
    set m := rest.foldl max s with hm
    have hmmem : m ∈ s :: rest := foldl_max_mem rest s
    rw [← hseqs] at hmmem
    have hmm := List.mem_filter.mp hmmem
    obtain ⟨fm, hfm, hfmeq⟩ := List.mem_map.mp hmm.1
    have hfmm := List.mem_filter.mp hfm
    have hbm := H fm hfmm.1 hfmm.2
    have hpadres := pad3_parse_bounded (m + 1) (by omega) (by omega)
    obtain ⟨x, y, z, hxyz⟩ := List.length_eq_three.mp hpadres.1
    have hpdf : ".pdf".toList = ['.', 'p', 'd', 'f'] := rfl
    have hgenform : gen = q ++ '_' :: ([x, y, z] ++ ['.', 'p', 'd', 'f']) := by
      rw [hgen, hval]
      dsimp only [seqChars]
      rw [hxyz, hpat, hpdf]
      simp
    have hparse : parseSeq gen = m + 1 := by
      rw [hgenform, parseSeq_pattern, ← hxyz]
      exact hpadres.2
    have hgseq : parseSeq gen ∈ s :: rest := by
      rw [← hseqs]
      exact List.mem_filter.mpr ⟨List.mem_map_of_mem parseSeq hmatch,
        by simp only [decide_eq_true_eq]; omega⟩
    have hle : parseSeq gen ≤ m := by
      rcases List.mem_cons.mp hgseq with h | h
      · exact h ▸ foldl_max_le_init s rest
      · exact foldl_max_le_mem rest _ h s
    omega

/-! ## Claim theorems -/

/-- Claim C1: a setReportStatus request (approve or reject) on a report
whose current status is not pending_approval fails with an error and
leaves the reports table — hence every field of the report, including any
approverId/approvedAt written earlier — unchanged; conversely, whenever
the request succeeds, the report's prior status was pending_approval, so
a report can reach approved or rejected only from pending_approval via
this endpoint. -/
theorem setReportStatus_only_from_pending :
    (∀ db actor id body now r, findReport db id = some r →
        r.status ≠ Status.pending_approval →
        (setReportStatus db actor id body now).1 = db ∧
        ∃ e, (setReportStatus db actor id body now).2 = Except.error e) ∧
    (∀ db actor id body now rep,
        (setReportStatus db actor id body now).2 = Except.ok rep →
        ∃ r, findReport db id = some r ∧ r.status = Status.pending_approval) := by
  constructor
  · intro db actor id body now r hfind hst
    unfold setReportStatus
    rw [hfind]
    by_cases hrole : hasRole actor "approver" = false
    · simp [hrole]
    · simp [hrole, hst]
  · intro db actor id body now rep hok
    unfold setReportStatus at hok
    cases hfind : findReport db id with
    | none =>
      rw [hfind] at hok
      exact absurd hok (by simp)
    | some r =>
      rw [hfind] at hok
      by_cases hrole : hasRole actor "approver" = false
      · simp [hrole] at hok
      · by_cases hst : r.status = Status.pending_approval
        · exact ⟨r, rfl, hst⟩
        · simp [hrole, hst] at hok

/-- Witness for C1: approving an already-approved report returns an error
and the stored table is unchanged. -/
theorem setReportStatus_only_from_pending_witness :
    (setReportStatus [approvedReport] approverUser "r1"
        ⟨StatusArg.approved, none⟩ 300).1 = [approvedReport] ∧
    ∃ e, (setReportStatus [approvedReport] approverUser "r1"
        ⟨StatusArg.approved, none⟩ 300).2 = Except.error e :=
  setReportStatus_only_from_pending.1 [approvedReport] approverUser "r1"
    ⟨StatusArg.approved, none⟩ 300 approvedReport (by rfl) (by decide)

/-- Claim C2 (failing input): with an empty reports table, two reports
created on 2025-01-31 at 12:00 and 13:00 — the same calendar month — both
receive reportNumber RPT-2025-01-001, because the monthly count uses
`new Date(year, month + 1, 0)` (midnight at the start of the last day of
the month) as the inclusive upper bound, making the earlier same-day
report invisible to the second creation. -/
theorem createReport_duplicate_number_on_last_day :
    (createReport [] insertFields "id-A" janLastDayNoon).2.reportNumber
        = "RPT-2025-01-001" ∧
    (createReport (createReport [] insertFields "id-A" janLastDayNoon).1
        insertFields "id-B" janLastDayLater).2.reportNumber = "RPT-2025-01-001" ∧
    tsOf 2025 1 1 0 0 0 ≤ (createReport [] insertFields "id-A" janLastDayNoon).2.createdAt ∧
    (createReport [] insertFields "id-A" janLastDayNoon).2.createdAt
      < (createReport (createReport [] insertFields "id-A" janLastDayNoon).1
          insertFields "id-B" janLastDayLater).2.createdAt ∧
    (createReport (createReport [] insertFields "id-A" janLastDayNoon).1
        insertFields "id-B" janLastDayLater).2.createdAt < tsOf 2025 2 1 0 0 0 := by
  exact ⟨by decide, by decide, by decide, by decide, by decide⟩

/-- Claim C3 (failing input): approving a pending report whose approverId
is NULL succeeds and sets status/approvedAt, but the stored report's
approverId remains NULL — `updateReportStatus` drops the approverId the
route passes — contradicting the claim that approverId and approvedAt are
populated together by the approval action. -/
theorem approve_leaves_approverId_null :
    ∃ rep, (setReportStatus [pendingReport] approverUser "r1"
        ⟨StatusArg.approved, none⟩ 300).2 = Except.ok rep ∧
      rep.status = Status.approved ∧ rep.approvedAt = some 300 ∧ rep.approverId = none ∧
      findReport (setReportStatus [pendingReport] approverUser "r1"
        ⟨StatusArg.approved, none⟩ 300).1 "r1" = some rep := by
  refine ⟨_, rfl, rfl, rfl, rfl, ?_⟩
  rfl

/-- Claim C4 (counterexample): a draft report with escalationRequired =
true and an empty escalationReason — but all seven required fields filled —
is submitted successfully; no validation of escalationReason exists, so
submit does not fail with a field error for it. -/
theorem submit_ignores_escalationReason :
    escalationReport.escalationRequired = true ∧
    escalationReport.escalationReason = some "" ∧
    ∃ rep, (submitReport [escalationReport] "h1" "r1" 400).2 = SubmitResp.ok rep ∧
      rep.status = Status.pending_approval := by
  exact ⟨rfl, rfl, _, rfl, rfl⟩

/-- Claim C4 (amended): submitReport succeeds exactly when the seven
required fields (userNumber, bankCode, branchCode, companyName,
contactPersonName, inquiryContent, responseContent) are non-empty after
trimming whitespace — escalationReason is never validated — and on
validation failure it returns a non-empty issue list and leaves the
reports table unchanged. -/
theorem submitReport_validation_spec (db : List Report) (actorId id : String)
    (now : Int) (r : Report)
    (hfind : findReport db id = some r) (hown : r.handlerId = actorId) :
    ((∃ rep, (submitReport db actorId id now).2 = SubmitResp.ok rep ∧
        rep.status = Status.pending_approval ∧
        findReport (submitReport db actorId id now).1 id = some rep) ↔
      submitRequirementsMet r) ∧
    (¬ submitRequirementsMet r →
      (submitReport db actorId id now).1 = db ∧
      ∃ errs, (submitReport db actorId id now).2 = SubmitResp.validationFailed errs ∧
        errs ≠ []) := by
  unfold submitReport
  rw [hfind]
  dsimp only
  rw [if_neg (by simp [hown])]
  constructor
  · constructor
    · intro ⟨rep, hok, _, _⟩
      cases hiss : submitIssues r with
      | nil => exact (refinePasses_iff r).mp ((submitIssues_empty_iff r).mp hiss)
      | cons e es =>
        rw [hiss] at hok
        simp at hok
    · intro hmet
      have hiss : submitIssues r = [] :=
        (submitIssues_empty_iff r).mpr ((refinePasses_iff r).mpr hmet)
      rw [hiss]
      exact ⟨_, rfl, by simp [applyStatusUpdate, StatusArg.toStatus],
        findReport_update db id _ now r hfind⟩
  · intro hnot
    have hiss : submitIssues r ≠ [] := by
      intro h
      exact hnot ((refinePasses_iff r).mp ((submitIssues_empty_iff r).mp h))
    cases hiss2 : submitIssues r with
    | nil => exact absurd hiss2 hiss
    | cons e es => exact ⟨rfl, e :: es, rfl, by simp⟩

/-- Witness for the amended C4: submitting a report whose companyName is a
single space fails validation and leaves the table unchanged. -/
theorem submitReport_validation_spec_witness :
    (submitReport [blankFieldReport] "h1" "r1" 400).1 = [blankFieldReport] ∧
    ∃ errs, (submitReport [blankFieldReport] "h1" "r1" 400).2
        = SubmitResp.validationFailed errs ∧ errs ≠ [] :=
  (submitReport_validation_spec [blankFieldReport] "h1" "r1" 400 blankFieldReport
    rfl rfl).2 (by unfold submitRequirementsMet; decide)

/-- Claim C5 (counterexample): a reject request on a pending_approval
report with NO rejectionReason succeeds — `updateReportStatusSchema`
marks rejectionReason optional and the route never checks it — instead of
failing validation as claimed. -/
theorem reject_without_reason_succeeds :
    (setReportStatus [pendingReport] approverUser "r1"
        ⟨StatusArg.rejected, none⟩ 300).2 = Except.ok rejectedNoReasonReport ∧
    rejectedNoReasonReport.status = Status.rejected ∧
    rejectedNoReasonReport.rejectionReason = none := by
  exact ⟨rfl, rfl, rfl⟩

/-- Claim C5 (amended): a reject request by an approver on a
pending_approval report always succeeds; it sets status to rejected and
leaves approvedAt unchanged (unset); a non-empty rejectionReason is
stored, while an absent or empty one leaves the stored rejectionReason
unchanged. -/
theorem reject_on_pending_spec (db : List Report) (actor : User) (id : String)
    (reason : Option String) (now : Int) (r : Report)
    (hfind : findReport db id = some r) (hst : r.status = Status.pending_approval)
    (hrole : hasRole actor "approver" = true) :
    ∃ rep, (setReportStatus db actor id ⟨StatusArg.rejected, reason⟩ now).2
        = Except.ok rep ∧
      findReport (setReportStatus db actor id ⟨StatusArg.rejected, reason⟩ now).1 id
        = some rep ∧
      rep.status = Status.rejected ∧
      rep.approvedAt = r.approvedAt ∧
      (∀ s, reason = some s → s ≠ "" → rep.rejectionReason = some s) ∧
      ((reason = none ∨ reason = some "") → rep.rejectionReason = r.rejectionReason) := by
  unfold setReportStatus
  rw [hfind]
  dsimp only
  rw [if_neg (by simp [hrole]), if_neg (by simp [hst]), if_neg (by decide)]
  refine ⟨_, rfl, findReport_update db id _ now r hfind, ?_, ?_, ?_, ?_⟩
  · cases reason with
    | none => simp [applyStatusUpdate, StatusArg.toStatus]
    | some s =>
      by_cases hs : s = "" <;> simp [applyStatusUpdate, StatusArg.toStatus, hs]
  · cases reason with
    | none => simp [applyStatusUpdate, StatusArg.toStatus]
    | some s =>
      by_cases hs : s = "" <;> simp [applyStatusUpdate, StatusArg.toStatus, hs]
  · intro s hsome hne
    subst hsome
    simp [applyStatusUpdate, StatusArg.toStatus, hne]
  · rintro (hnone | hempty)
    · subst hnone
      simp [applyStatusUpdate, StatusArg.toStatus]
    · subst hempty
      simp [applyStatusUpdate, StatusArg.toStatus]

/-- Witness for the amended C5: rejecting a pending report with reason
"NG" succeeds, stores the reason and leaves approvedAt unset. -/
theorem reject_on_pending_spec_witness :
    ∃ rep, (setReportStatus [pendingReport] approverUser "r1"
        ⟨StatusArg.rejected, some "NG"⟩ 300).2 = Except.ok rep ∧
      findReport (setReportStatus [pendingReport] approverUser "r1"
        ⟨StatusArg.rejected, some "NG"⟩ 300).1 "r1" = some rep ∧
      rep.status = Status.rejected ∧
      rep.approvedAt = pendingReport.approvedAt ∧
      (∀ s, (some "NG" : Option String) = some s → s ≠ "" → rep.rejectionReason = some s) ∧
      (((some "NG" : Option String) = none ∨ (some "NG" : Option String) = some "") →
        rep.rejectionReason = pendingReport.rejectionReason) :=
  reject_on_pending_spec [pendingReport] approverUser "r1" (some "NG") 300 pendingReport
    rfl rfl (by rfl)

/-- Claim C6 (failing input): a handler-role user (not an approver)
searching for "Acme" receives another handler's report — the route passes
a scoping userId, but `searchReports` declares only the query parameter
and the filter never mentions handlerId — contradicting the claim that a
handler's search results all have handlerId equal to the actor's id. -/
theorem search_not_scoped_to_handler :
    hasRole handlerUser1 "approver" = false ∧
    listReports [otherHandlersReport] [handlerUser1, handlerUser2, approverUser]
        handlerUser1 none (some "Acme") = [otherHandlersReport] ∧
    otherHandlersReport.handlerId ≠ handlerUser1.id := by
  refine ⟨by rfl, by rfl, by decide⟩

/-- Claim C7: getReportStatistics returns exactly four counters:
reports created in [start of the current local day, start of the next
day); reports with status pending_approval regardless of approver;
reports with status approved created at or after the start of the current
month; and reports with escalationRequired true over all time. -/
theorem getReportStatistics_spec (db : List Report) (today : LocalTime) :
    (getReportStatistics db today).todayInquiries
      = db.countP (fun r => decide (tsOf today.year today.month today.day 0 0 0 ≤ r.createdAt
          ∧ r.createdAt < tsOf today.year today.month (today.day + 1) 0 0 0)) ∧
    (getReportStatistics db today).pendingApprovals
      = db.countP (fun r => decide (r.status = Status.pending_approval)) ∧
    (getReportStatistics db today).monthlyCompleted
      = db.countP (fun r => decide (r.status = Status.approved
          ∧ tsOf today.year today.month 1 0 0 0 ≤ r.createdAt)) ∧
    (getReportStatistics db today).escalations
      = db.countP (fun r => r.escalationRequired) := by
  refine ⟨?_, ?_, ?_, ?_⟩ <;>
    simp [getReportStatistics, List.countP_eq_length_filter, Bool.decide_and]

/-- Claim C8: every PDF/print operation on a report whose status is not
approved returns an error and renders nothing, and every document any of
these routes produces was rendered from approved reports only (the bulk
route via the approved-filtered day listing). -/
theorem pdf_routes_require_approved :
    (∀ db id r, findReport db id = some r → r.status ≠ Status.approved →
      (∃ e, pdfDataRoute db id = Except.error e) ∧
      (∀ pid pname, ∃ e, printRoute db id pid pname = Except.error e) ∧
      (∀ files dateStr action, ∃ e, printPdfRoute db files dateStr id action
        = Except.error e) ∧
      (∀ files dateStr, ∃ e, savePdfRoute db files dateStr id = Except.error e)) ∧
    (∀ db id rep, pdfDataRoute db id = Except.ok rep → rep.status = Status.approved) ∧
    (∀ db id pid pname d, printRoute db id pid pname = Except.ok d →
      ∃ r, d = Doc.rendered r ∧ r.status = Status.approved) ∧
    (∀ db files dateStr id action resp,
      printPdfRoute db files dateStr id action = Except.ok resp →
      ∃ r, resp.htmlContent = Doc.rendered r ∧ r.status = Status.approved) ∧
    (∀ db files dateStr id fn, savePdfRoute db files dateStr id = Except.ok fn →
      ∃ r, findReport db id = some r ∧ r.status = Status.approved) ∧
    (∀ db files dateStr today g, g ∈ bulkPrintToday db files dateStr today →
      g.htmlContent = Doc.renderedBulk g.reports g.bankCode ∧
      ∀ r ∈ g.reports, r.status = Status.approved) := by
  refine ⟨?_, ?_, ?_, ?_, ?_, ?_⟩
  · intro db id r hfind hst
    refine ⟨?_, fun pid pname => ?_, fun files dateStr action => ?_,
      fun files dateStr => ?_⟩
    · unfold pdfDataRoute
      rw [hfind]
      dsimp only
      rw [if_pos hst]
      exact ⟨_, rfl⟩
    · unfold printRoute
      by_cases hp : pid = "" || pname = ""
      · rw [if_pos hp]
        exact ⟨_, rfl⟩
      · rw [if_neg hp, hfind]
        dsimp only
        rw [if_pos hst]
        exact ⟨_, rfl⟩
    · unfold printPdfRoute
      rw [hfind]
      dsimp only
      rw [if_pos hst]
      exact ⟨_, rfl⟩
    · unfold savePdfRoute
      rw [hfind]
      dsimp only
      rw [if_pos hst]
      exact ⟨_, rfl⟩
  · intro db id rep hok
    unfold pdfDataRoute at hok
    cases hfind : findReport db id with
    | none =>
      rw [hfind] at hok
      simp at hok
    | some r =>
      rw [hfind] at hok
      dsimp only at hok
      by_cases hst : r.status = Status.approved
      · rw [if_neg (by simp [hst])] at hok
        cases hok
        exact hst
      · rw [if_pos hst] at hok
        simp at hok
  · intro db id pid pname d hok
    unfold printRoute at hok
    by_cases hp : pid = "" || pname = ""
    · rw [if_pos hp] at hok
      simp at hok
    · rw [if_neg hp] at hok
      cases hfind : findReport db id with
      | none =>
        rw [hfind] at hok
        simp at hok
      | some r =>
        rw [hfind] at hok
        dsimp only at hok
        by_cases hst : r.status = Status.approved
        · rw [if_neg (by simp [hst])] at hok
          cases hok
          exact ⟨r, rfl, hst⟩
        · rw [if_pos hst] at hok
          simp at hok
  · intro db files dateStr id action resp hok
    unfold printPdfRoute at hok
    cases hfind : findReport db id with
    | none =>
      rw [hfind] at hok
      simp at hok
    | some r =>
      rw [hfind] at hok
      dsimp only at hok
      by_cases hst : r.status = Status.approved
      · rw [if_neg (by simp [hst])] at hok
        cases action with
        | save =>
          cases hok
          exact ⟨r, rfl, hst⟩
        | print =>
          cases hok
          exact ⟨r, rfl, hst⟩
        | other => simp at hok
      · rw [if_pos hst] at hok
        simp at hok
  · intro db files dateStr id fn hok
    unfold savePdfRoute at hok
    cases hfind : findReport db id with
    | none =>
      rw [hfind] at hok
      simp at hok
    | some r =>
      rw [hfind] at hok
      dsimp only at hok
      by_cases hst : r.status = Status.approved
      · exact ⟨r, rfl, hst⟩
      · rw [if_pos hst] at hok
        simp at hok
  · intro db files dateStr today g hg
    unfold bulkPrintToday at hg
    rw [List.mem_map] at hg
    obtain ⟨p, hp, hgp⟩ := hg
    rw [List.mem_filter] at hp
    obtain ⟨hpmem, -⟩ := hp
    unfold getTodayApprovedReportsByBank at hpmem
    rw [List.mem_map] at hpmem
    obtain ⟨b, -, hb⟩ := hpmem
    subst hgp
    refine ⟨rfl, ?_⟩
    intro r hr
    dsimp only at hr
    rw [← hb] at hr
    dsimp only at hr
    rw [List.mem_filter] at hr
    obtain ⟨hrmem, -⟩ := hr
    rw [List.mem_filter] at hrmem
    obtain ⟨-, hcond⟩ := hrmem
    simp at hcond
    exact hcond.1.1

/-- Witness for C8: the PDF data route errors on a pending report, and a
successful PDF data request implies the report was approved. -/
theorem pdf_routes_require_approved_witness :
    (∃ e, pdfDataRoute [pendingReport] "r1" = Except.error e) ∧
    approvedReport.status = Status.approved :=
  ⟨(pdf_routes_require_approved.1 [pendingReport] "r1" pendingReport rfl (by decide)).1,
   pdf_routes_require_approved.2.1 [approvedReport] "r1" approvedReport rfl⟩

/-- Claim C9 (counterexample): with files 077_001_20251011_999.pdf and
077_001_20251011_1000.pdf present, generatePDFFilename returns
077_001_20251011_1000.pdf — `padStart(3)` does not truncate four-digit
sequences and the 3-digit regex never re-parses them — so the returned
filename collides with a file already present in the directory. -/
theorem generatePDFFilename_collision :
    generatePDFFilename pdfFiles999 "077".toList "001".toList "20251011".toList
      = "077_001_20251011_1000.pdf".toList ∧
    "077_001_20251011_1000.pdf".toList ∈ pdfFiles999 := by
  exact ⟨by decide, by decide⟩

/-- Claim C9 (amended): generatePDFFilename / generateBulkPDFFilename use
sequence 1 when no file matches the prefix, and otherwise the maximum
parsed trailing 3-digit sequence plus one; provided every file matching
the prefix carries a trailing 3-digit sequence between 1 and 998, the
returned filename differs from every filename already present. -/
theorem generateFilenames_fresh :
    (∀ files bankCode branchCode dateStr,
      (∀ f ∈ files, List.isPrefixOf (pdfPattern bankCode branchCode dateStr) f = true →
        1 ≤ parseSeq f ∧ parseSeq f ≤ 998) →
      generatePDFFilename files bankCode branchCode dateStr ∉ files) ∧
    (∀ files bankCode dateStr,
      (∀ f ∈ files, List.isPrefixOf (bulkPattern bankCode dateStr) f = true →
        1 ≤ parseSeq f ∧ parseSeq f ≤ 998) →
      generateBulkPDFFilename files bankCode dateStr ∉ files) ∧
    (∀ files bankCode branchCode dateStr,
      files.filter (fun f => List.isPrefixOf (pdfPattern bankCode branchCode dateStr) f)
          = [] →
      getSequenceNumber files bankCode branchCode dateStr = SeqNumber.nat 1) ∧
    (∀ files bankCode dateStr,
      files.filter (fun f => List.isPrefixOf (bulkPattern bankCode dateStr) f) = [] →
      getBulkSequenceNumber files bankCode dateStr = SeqNumber.nat 1) := by
  have hpdfq : ∀ b br d : List Char,
      pdfPattern b br d = (b ++ '_' :: br ++ '_' :: d) ++ ['_'] := by
    intro b br d
    simp [pdfPattern]
  have hbulkq : ∀ b d : List Char,
      bulkPattern b d = (b ++ "_BULK_".toList ++ d) ++ ['_'] := by
    intro b d
    have h6 : "_BULK_".toList = ['_', 'B', 'U', 'L', 'K', '_'] := rfl
    simp [bulkPattern, h6]
  refine ⟨?_, ?_, ?_, ?_⟩
  · intro files b br d H
    have H2 : ∀ f ∈ files,
        List.isPrefixOf ((b ++ '_' :: br ++ '_' :: d) ++ ['_']) f = true →
        1 ≤ parseSeq f ∧ parseSeq f ≤ 998 := by
      intro f hf hp
      exact H f hf (by rw [hpdfq]; exact hp)
    have h := nextSequenceNumber_fresh files (b ++ '_' :: br ++ '_' :: d) H2
    unfold generatePDFFilename getSequenceNumber
    rw [hpdfq]
    exact h
  · intro files b d H
    have H2 : ∀ f ∈ files,
        List.isPrefixOf ((b ++ "_BULK_".toList ++ d) ++ ['_']) f = true →
        1 ≤ parseSeq f ∧ parseSeq f ≤ 998 := by
      intro f hf hp
      exact H f hf (by rw [hbulkq]; exact hp)
    have h := nextSequenceNumber_fresh files (b ++ "_BULK_".toList ++ d) H2
    unfold generateBulkPDFFilename getBulkSequenceNumber
    rw [hbulkq]
    exact h
  · intro files b br d hf
    unfold getSequenceNumber nextSequenceNumber
    rw [hf]
    simp
  · intro files b d hf
    unfold getBulkSequenceNumber nextSequenceNumber
    rw [hf]
    simp

/-- Witness for the amended C9: in a directory holding sequence 001 for
today's prefix plus an unrelated file, the generated filename is fresh;
and an empty directory yields sequence 1. -/
theorem generateFilenames_fresh_witness :
    generatePDFFilename pdfDirSample "077".toList "001".toList "20251011".toList
        ∉ pdfDirSample ∧
    getSequenceNumber [] "077".toList "001".toList "20251011".toList
        = SeqNumber.nat 1 :=
  ⟨generateFilenames_fresh.1 pdfDirSample "077".toList "001".toList "20251011".toList
      (by decide),
   generateFilenames_fresh.2.2.1 [] "077".toList "001".toList "20251011".toList
      (by decide)⟩

/-- Claim C10: hasRole is fail-closed — whenever the roles column does not
parse as JSON, hasRole returns false for every requested role (the model
is total: the thrown exception is caught) — and when the column parses as
a JSON array, hasRole is true exactly when the requested role is a string
element of that array. -/
theorem hasRole_fail_closed_membership (user : User) (r : String) :
    (jsonParse user.roles.toList = none → hasRole user r = false) ∧
    (∀ vs, jsonParse user.roles.toList = some (Json.arr vs) →
      (hasRole user r = true ↔ Json.str r.toList ∈ vs)) := by
  constructor
  · intro h
    unfold hasRole
    rw [h]
  · intro vs h
    unfold hasRole
    rw [h]
    show jsIncludes (Json.arr vs) r.toList = true ↔ _
    simp only [jsIncludes, List.any_eq_true]
    constructor
    · rintro ⟨e, he, hm⟩
      cases e <;> simp_all
    · intro hmem
      exact ⟨Json.str r.toList, hmem, by simp⟩

/-- Witness for C10: a roles column holding the bare word `handler` (not
JSON) denies every role, and a JSON array containing "approver" grants
that role. -/
theorem hasRole_fail_closed_membership_witness :
    hasRole userBadRoles "approver" = false ∧
    hasRole userHandlerApprover "approver" = true :=
  ⟨(hasRole_fail_closed_membership userBadRoles "approver").1 rfl,
   ((hasRole_fail_closed_membership userHandlerApprover "approver").2 _ rfl).mpr
     (List.mem_cons_of_mem _ (List.mem_cons_self _ _))⟩

end Densai
